import Mathlib

/-!
Verification of the XPBD constraint core of `bevy_xpbd`:
the angular-correction routine (`src/constraints/angular_constraint.rs`)
and the joint limit helpers (`src/constraints/joints/mod.rs`).

Scalars (`Scalar`, i.e. `f32`) are modelled as real numbers and the glam
vector/quaternion operations by their defining formulas.  The
`RigidBodyQueryItem` body record and the `Rot` rotation type are not part of
the given sources; they are modelled from the specification (data model in
section 3 and the `get_delta_rot` description in section 4.1): a 2D rotation
is a signed angle, a 3D rotation is a quaternion updated by componentwise
addition of the first-order increment.
-/

namespace BevyXpbd

/-- The constant `Scalar::EPSILON`, the machine epsilon of `f32`, i.e. `2 ^ (-23)`. -/
noncomputable def EPSILON : ℝ := 1 / 2 ^ 23

/-- The `RigidBody` motion type of a body: `Dynamic`, `Static` or `Kinematic`. -/
inductive RigidBody where
  | dynamic
  | static
  | kinematic
deriving DecidableEq

/-- Rust `RigidBody::is_dynamic`. -/
def RigidBody.is_dynamic : RigidBody → Bool
  | .dynamic => true
  | _ => false

/-- A 3-component vector of scalars (glam `Vec3` / `DVec3`). -/
structure Vec3 where
  x : ℝ
  y : ℝ
  z : ℝ

instance : Zero Vec3 := ⟨⟨0, 0, 0⟩⟩

/-- Componentwise vector addition. -/
def Vec3.add (a b : Vec3) : Vec3 := ⟨a.x + b.x, a.y + b.y, a.z + b.z⟩

instance : Add Vec3 := ⟨Vec3.add⟩

/-- Componentwise vector subtraction. -/
def Vec3.sub (a b : Vec3) : Vec3 := ⟨a.x - b.x, a.y - b.y, a.z - b.z⟩

instance : Sub Vec3 := ⟨Vec3.sub⟩

/-- Componentwise vector negation. -/
def Vec3.neg (a : Vec3) : Vec3 := ⟨-a.x, -a.y, -a.z⟩

instance : Neg Vec3 := ⟨Vec3.neg⟩

/-- Scalar multiplication of a vector (glam `Scalar * Vec3` / `Vec3 * Scalar`). -/
def Vec3.smul (c : ℝ) (v : Vec3) : Vec3 := ⟨c * v.x, c * v.y, c * v.z⟩

instance : SMul ℝ Vec3 := ⟨Vec3.smul⟩

/-- Division of a vector by a scalar (glam `Vec3 / Scalar`). -/
noncomputable def Vec3.div (v : Vec3) (c : ℝ) : Vec3 := ⟨v.x / c, v.y / c, v.z / c⟩

/-- glam `Vec3::dot`. -/
def Vec3.dot (a b : Vec3) : ℝ := a.x * b.x + a.y * b.y + a.z * b.z

/-- glam `Vec3::cross`. -/
def Vec3.cross (a b : Vec3) : Vec3 :=
  ⟨a.y * b.z - a.z * b.y, a.z * b.x - a.x * b.z, a.x * b.y - a.y * b.x⟩

/-- glam `Vec3::length`, the Euclidean norm. -/
noncomputable def Vec3.length (v : Vec3) : ℝ := Real.sqrt (v.dot v)

/-- A quaternion in glam's `(x, y, z, w)` layout: `x, y, z` imaginary, `w` real. -/
structure Quat where
  x : ℝ
  y : ℝ
  z : ℝ
  w : ℝ

/-- Componentwise quaternion addition (the `Add` used by the 3D `Rot` update). -/
def Quat.add (a b : Quat) : Quat := ⟨a.x + b.x, a.y + b.y, a.z + b.z, a.w + b.w⟩

instance : Add Quat := ⟨Quat.add⟩

/-- Componentwise quaternion subtraction (the `Sub` used by the 3D `Rot` update). -/
def Quat.sub (a b : Quat) : Quat := ⟨a.x - b.x, a.y - b.y, a.z - b.z, a.w - b.w⟩

instance : Sub Quat := ⟨Quat.sub⟩

/-- glam `Quat::mul` – the Hamilton product. -/
def Quat.mul (a b : Quat) : Quat :=
  ⟨a.w * b.x + a.x * b.w + a.y * b.z - a.z * b.y,
   a.w * b.y - a.x * b.z + a.y * b.w + a.z * b.x,
   a.w * b.z + a.x * b.y - a.y * b.x + a.z * b.w,
   a.w * b.w - a.x * b.x - a.y * b.y - a.z * b.z⟩

/-- glam `Quat::from_vec4`: reinterpret the components of a 4-vector
`(v.x, v.y, v.z, w)` as a quaternion. -/
def Quat.fromVec4 (v : Vec3) (w : ℝ) : Quat := ⟨v.x, v.y, v.z, w⟩

/-- glam `Quat::mul_vec3`: rotate a vector by a quaternion, using glam's
`v * (w² - b·b) + b * (2 (v·b)) + (b × v) * (2 w)` formula with
`b = (q.x, q.y, q.z)`. -/
def Quat.mulVec3 (q : Quat) (v : Vec3) : Vec3 :=
  let b : Vec3 := ⟨q.x, q.y, q.z⟩
  (q.w * q.w - b.dot b) • v + (v.dot b * 2) • b + (q.w * 2) • b.cross v

/-- glam `Quat::from_axis_angle` for a unit `axis`:
`(axis * sin(angle/2), cos(angle/2))`. -/
noncomputable def Quat.fromAxisAngle (axis : Vec3) (angle : ℝ) : Quat :=
  ⟨axis.x * Real.sin (angle / 2), axis.y * Real.sin (angle / 2),
   axis.z * Real.sin (angle / 2), Real.cos (angle / 2)⟩

/-- Modelled from the spec: the 2D body state of `RigidBodyQueryItem`
(which is not part of the given sources) restricted to the fields the angular
constraint reads — the rotation (a signed angle in 2D), the world inverse
inertia (a scalar in 2D, equal to the stored inverse inertia), and the
motion type. -/
structure Body2 where
  rot : ℝ
  invInertia : ℝ
  rb : RigidBody

/-- Modelled from the spec: the 3D body state of `RigidBodyQueryItem`
(which is not part of the given sources) restricted to the fields the angular
constraint reads — the rotation quaternion, the world-frame inverse inertia
tensor (as the linear operator `body.world_inv_inertia().0 *`), and the
motion type. -/
structure Body3 where
  rot : Quat
  worldInvInertia : Vec3 → Vec3
  rb : RigidBody

/-- Rust `AngularConstraint::get_delta_rot` (2D): a pure rotation of
`inv_inertia * p` radians, i.e. `Rot::from_radians(inv_inertia * p)` with a
2D `Rot` modelled from the spec as its signed angle. -/
def get_delta_rot2 (_rot : ℝ) (inv_inertia p : ℝ) : ℝ := inv_inertia * p

/-- Rust `AngularConstraint::get_delta_rot` (3D):
`Rot(Quaternion::from_vec4(0.5 * (inv_inertia * p).extend(0.0)) * rot.0)`. -/
def get_delta_rot3 (rot : Quat) (inv_inertia : Vec3 → Vec3) (p : Vec3) : Quat :=
  (Quat.fromVec4 ((0.5 : ℝ) • inv_inertia p) 0).mul rot

/-- Rust `AngularConstraint::apply_angular_correction` (2D feature).  Returns the
two updated body states together with the returned impulse scalar. -/
noncomputable def apply_angular_correction2 (body1 body2 : Body2)
    (delta_lagrange : ℝ) (axis : Vec3) : Body2 × Body2 × ℝ :=
  if delta_lagrange ≥ -EPSILON then
    (body1, body2, 0)
  else
    let p := -delta_lagrange * axis.z
    let rot1 := body1.rot
    let rot2 := body2.rot
    let inv_inertia1 := body1.invInertia
    let inv_inertia2 := body2.invInertia
    let body1 :=
      if body1.rb.is_dynamic then
        { body1 with rot := body1.rot + get_delta_rot2 rot1 inv_inertia1 p }
      else body1
    let body2 :=
      if body2.rb.is_dynamic then
        { body2 with rot := body2.rot - get_delta_rot2 rot2 inv_inertia2 p }
      else body2
    (body1, body2, p)

/-- Rust `AngularConstraint::apply_angular_correction` (3D feature).  Returns the
two updated body states together with the returned impulse vector. -/
noncomputable def apply_angular_correction3 (body1 body2 : Body3)
    (delta_lagrange : ℝ) (axis : Vec3) : Body3 × Body3 × Vec3 :=
  if delta_lagrange ≥ -EPSILON then
    (body1, body2, 0)
  else
    let p := (-delta_lagrange) • axis
    let rot1 := body1.rot
    let rot2 := body2.rot
    let inv_inertia1 := body1.worldInvInertia
    let inv_inertia2 := body2.worldInvInertia
    let body1 :=
      if body1.rb.is_dynamic then
        { body1 with rot := body1.rot + get_delta_rot3 rot1 inv_inertia1 p }
      else body1
    let body2 :=
      if body2.rb.is_dynamic then
        { body2 with rot := body2.rot - get_delta_rot3 rot2 inv_inertia2 p }
      else body2
    (body1, body2, p)

/-- Rust `AngularConstraint::compute_generalized_inverse_mass` (2D feature):
`axis.dot(body.inv_inertia.0 * axis)` for dynamic bodies, else `0`. -/
def compute_generalized_inverse_mass2 (body : Body2) (axis : Vec3) : ℝ :=
  if body.rb.is_dynamic then
    axis.dot (body.invInertia • axis)
  else
    0

/-- Rust `AngularConstraint::compute_generalized_inverse_mass` (3D feature):
`axis.dot(body.world_inv_inertia().0 * axis)` for dynamic bodies, else `0`. -/
def compute_generalized_inverse_mass3 (body : Body3) (axis : Vec3) : ℝ :=
  if body.rb.is_dynamic then
    axis.dot (body.worldInvInertia axis)
  else
    0

/-- Rust `AngularConstraint::compute_torque` (2D feature):
`lagrange * axis.z / dt.powi(2)`. -/
noncomputable def compute_torque2 (lagrange : ℝ) (axis : Vec3) (dt : ℝ) : ℝ :=
  lagrange * axis.z / dt ^ 2

/-- Rust `AngularConstraint::compute_torque` (3D feature):
`lagrange * axis / dt.powi(2)`. -/
noncomputable def compute_torque3 (lagrange : ℝ) (axis : Vec3) (dt : ℝ) : Vec3 :=
  (lagrange • axis).div (dt ^ 2)

/-- Rust `Joint::limit_distance`: the positional correction limiting the distance
between the world-space anchor points `pos1 + r1` and `pos2 + r2` to lie
between `min` and `max`. -/
noncomputable def limit_distance (min max : ℝ) (r1 r2 pos1 pos2 : Vec3) : Vec3 :=
  let pos_offset := (pos2 + r2) - (pos1 + r1)
  let distance := pos_offset.length
  if distance ≤ EPSILON then
    0
  else if distance < min then
    (distance - min) • (-pos_offset).div distance
  else if distance > max then
    (distance - max) • (-pos_offset).div distance
  else
    0

/-- Rust `Joint::limit_distance_along_axis`: the positional correction limiting the
projection of the anchor offset onto `axis` to lie between `min` and `max`. -/
noncomputable def limit_distance_along_axis (min max : ℝ) (axis r1 r2 pos1 pos2 : Vec3) :
    Vec3 :=
  let pos_offset := (pos2 + r2) - (pos1 + r1)
  let a := pos_offset.dot axis
  if a < min then
    (a - min) • (-axis)
  else if a > max then
    (a - max) • (-axis)
  else
    0

/-- Rust `f32::clamp(lo, hi)`: `lo` when below `lo`, `hi` when above `hi`. -/
noncomputable def clampS (x lo hi : ℝ) : ℝ :=
  if x < lo then lo else if x > hi then hi else x

/-- The signed angle `phi` measured by `Joint::limit_angle`:
`asin(cross(n1, n2) · n)`, flipped to `PI - phi` when `n1 · n2 < 0`, then
wrapped once into `[-PI, PI]`. -/
noncomputable def limit_angle_phi (n n1 n2 : Vec3) : ℝ :=
  let phi0 := Real.arcsin ((n1.cross n2).dot n)
  let phi1 := if n1.dot n2 < 0 then Real.pi - phi0 else phi0
  let phi2 := if phi1 > Real.pi then phi1 - 2 * Real.pi else phi1
  if phi2 < -Real.pi then phi2 + 2 * Real.pi else phi2

/-- The raw corrective vector built by `Joint::limit_angle` once the limit is
violated: `Quaternion::from_axis_angle(n, phi).mul_vec3(n1).cross(n2)`. -/
noncomputable def limit_angle_omega (n n1 n2 : Vec3) (phi : ℝ) : Vec3 :=
  ((Quat.fromAxisAngle n phi).mulVec3 n1).cross n2

/-- Rust `Joint::limit_angle`: `None` when the wrapped angle already lies inside
`[alpha, beta]`; otherwise `Some` of the corrective vector for the clamped
angle, rescaled to length `max_correction` when it is longer than that. -/
noncomputable def limit_angle (n n1 n2 : Vec3) (alpha beta max_correction : ℝ) :
    Option Vec3 :=
  let phi := limit_angle_phi n n1 n2
  if phi < alpha ∨ phi > beta then
    let omega := limit_angle_omega n n1 n2 (clampS phi alpha beta)
    let phi := omega.length
    some (if phi > max_correction then (max_correction / phi) • omega else omega)
  else
    none

/-! Componentwise equation lemmas for the vector and quaternion instances. -/

theorem Vec3.add_def (a b : Vec3) : a + b = ⟨a.x + b.x, a.y + b.y, a.z + b.z⟩ := rfl

theorem Vec3.sub_def (a b : Vec3) : a - b = ⟨a.x - b.x, a.y - b.y, a.z - b.z⟩ := rfl

theorem Vec3.neg_def (a : Vec3) : -a = ⟨-a.x, -a.y, -a.z⟩ := rfl

theorem Vec3.smul_def (c : ℝ) (v : Vec3) : c • v = ⟨c * v.x, c * v.y, c * v.z⟩ := rfl

theorem Vec3.zero_def : (0 : Vec3) = ⟨0, 0, 0⟩ := rfl

theorem Quat.addq_eq (a b : Quat) :
    a + b = ⟨a.x + b.x, a.y + b.y, a.z + b.z, a.w + b.w⟩ := rfl

theorem Quat.subq_eq (a b : Quat) :
    a - b = ⟨a.x - b.x, a.y - b.y, a.z - b.z, a.w - b.w⟩ := rfl

/-- The machine epsilon constant is positive. -/
theorem EPSILON_pos : 0 < EPSILON := by norm_num [EPSILON]

/-- The Euclidean norm of a vector supported on the first coordinate. -/
theorem Vec3.length_single (a : ℝ) (ha : 0 ≤ a) : Vec3.length ⟨a, 0, 0⟩ = a := by
  rw [Vec3.length, Vec3.dot]
  simp only [mul_zero, add_zero]
  exact Real.sqrt_mul_self ha

/-- The Euclidean norm is absolutely homogeneous. -/
theorem Vec3.length_smul (c : ℝ) (v : Vec3) : (c • v).length = |c| * v.length := by
  rw [Vec3.length, Vec3.length, Vec3.smul_def, Vec3.dot, Vec3.dot]
  rw [show c * v.x * (c * v.x) + c * v.y * (c * v.y) + c * v.z * (c * v.z) =
      c ^ 2 * (v.x * v.x + v.y * v.y + v.z * v.z) by ring]
  rw [Real.sqrt_mul (sq_nonneg c), Real.sqrt_sq_eq_abs]

/-- The Euclidean norm is non-negative. -/
theorem Vec3.length_nonneg (v : Vec3) : 0 ≤ v.length := Real.sqrt_nonneg _

/-- C1: for every pair of body states and every axis, if
`delta_lagrange ≥ -EPSILON` then `apply_angular_correction` returns a zero
impulse (the scalar `0.0` in 2D, the zero vector in 3D) and leaves both body
states — in particular both rotations — completely unchanged. -/
theorem apply_angular_correction_skip (b1 b2 : Body2) (B1 B2 : Body3)
    (delta_lagrange : ℝ) (axis : Vec3) (h : delta_lagrange ≥ -EPSILON) :
    apply_angular_correction2 b1 b2 delta_lagrange axis = (b1, b2, 0) ∧
    apply_angular_correction3 B1 B2 delta_lagrange axis = (B1, B2, 0) := by
  constructor
  · rw [apply_angular_correction2, if_pos h]
  · rw [apply_angular_correction3, if_pos h]

/-- Witness for C1: at `delta_lagrange = 1` (a positive increment) nothing is
applied and the zero impulse is returned. -/
theorem apply_angular_correction_skip_witness :
    apply_angular_correction2 ⟨0, 2, .dynamic⟩ ⟨1, 3, .static⟩ 1 ⟨0, 0, 1⟩ =
      (⟨0, 2, .dynamic⟩, ⟨1, 3, .static⟩, 0) :=
  (apply_angular_correction_skip ⟨0, 2, .dynamic⟩ ⟨1, 3, .static⟩
    ⟨⟨0, 0, 0, 1⟩, fun v => v, .dynamic⟩ ⟨⟨0, 0, 0, 1⟩, fun v => v, .dynamic⟩
    1 ⟨0, 0, 1⟩ (by norm_num [EPSILON])).1

/-- C2: for every `delta_lagrange < -EPSILON`, `apply_angular_correction`
computes the impulse `p = -delta_lagrange * axis` (in 2D the scalar
`-delta_lagrange * axis.z`), advances each `Dynamic` body's rotation by
`get_delta_rot` at its pre-call rotation and world inverse inertia — body1
receiving `+p` and body2 `-p` — leaves non-dynamic bodies unchanged and
returns `p`; concretely in 2D with `axis = (0,0,1)`, `delta_lagrange = -1`,
both bodies dynamic with inverse inertia `2`, the impulse is `1`, body1's
rotation grows by `2` radians and body2's shrinks by `2` radians. -/
theorem apply_angular_correction_effect (b1 b2 : Body2) (B1 B2 : Body3)
    (delta_lagrange : ℝ) (axis : Vec3) (h : delta_lagrange < -EPSILON) :
    apply_angular_correction2 b1 b2 delta_lagrange axis =
      ((if b1.rb.is_dynamic then
          { b1 with rot := b1.rot +
              get_delta_rot2 b1.rot b1.invInertia (-delta_lagrange * axis.z) }
        else b1),
       (if b2.rb.is_dynamic then
          { b2 with rot := b2.rot -
              get_delta_rot2 b2.rot b2.invInertia (-delta_lagrange * axis.z) }
        else b2),
       -delta_lagrange * axis.z) ∧
    apply_angular_correction3 B1 B2 delta_lagrange axis =
      ((if B1.rb.is_dynamic then
          { B1 with rot := B1.rot +
              get_delta_rot3 B1.rot B1.worldInvInertia ((-delta_lagrange) • axis) }
        else B1),
       (if B2.rb.is_dynamic then
          { B2 with rot := B2.rot -
              get_delta_rot3 B2.rot B2.worldInvInertia ((-delta_lagrange) • axis) }
        else B2),
       (-delta_lagrange) • axis) ∧
    apply_angular_correction2 ⟨0, 2, .dynamic⟩ ⟨0, 2, .dynamic⟩ (-1) ⟨0, 0, 1⟩ =
      (⟨2, 2, .dynamic⟩, ⟨-2, 2, .dynamic⟩, 1) := by
  have hn : ¬ delta_lagrange ≥ -EPSILON := not_le.mpr h
  refine ⟨?_, ?_, ?_⟩
  · rw [apply_angular_correction2, if_neg hn]
  · rw [apply_angular_correction3, if_neg hn]
  · have hn1 : ¬ (-1 : ℝ) ≥ -EPSILON := by norm_num [EPSILON]
    rw [apply_angular_correction2, if_neg hn1]
    norm_num [RigidBody.is_dynamic, get_delta_rot2]

/-- Witness for C2: the concrete 2D example, obtained from the theorem at
`delta_lagrange = -1`. -/
theorem apply_angular_correction_effect_witness :
    apply_angular_correction2 ⟨0, 2, .dynamic⟩ ⟨0, 2, .dynamic⟩ (-1) ⟨0, 0, 1⟩ =
      (⟨2, 2, .dynamic⟩, ⟨-2, 2, .dynamic⟩, 1) :=
  (apply_angular_correction_effect ⟨0, 2, .dynamic⟩ ⟨0, 2, .dynamic⟩
    ⟨⟨0, 0, 0, 1⟩, fun v => v, .dynamic⟩ ⟨⟨0, 0, 0, 1⟩, fun v => v, .dynamic⟩
    (-1) ⟨0, 0, 1⟩ (by norm_num [EPSILON])).2.2

/-- C9: the impulse returned by `apply_angular_correction` is independent of
the motion types: for `delta_lagrange < -EPSILON` and two non-dynamic bodies
the call leaves both bodies unchanged yet still returns
`p = -delta_lagrange * axis` (2D: `-delta_lagrange * axis.z`), which is
nonzero whenever `axis.z` is nonzero. -/
theorem apply_angular_correction_impulse_static (b1 b2 : Body2) (B1 B2 : Body3)
    (delta_lagrange : ℝ) (axis : Vec3) (h : delta_lagrange < -EPSILON)
    (h1 : b1.rb.is_dynamic = false) (h2 : b2.rb.is_dynamic = false)
    (H1 : B1.rb.is_dynamic = false) (H2 : B2.rb.is_dynamic = false)
    (hz : axis.z ≠ 0) :
    apply_angular_correction2 b1 b2 delta_lagrange axis =
      (b1, b2, -delta_lagrange * axis.z) ∧
    -delta_lagrange * axis.z ≠ 0 ∧
    apply_angular_correction3 B1 B2 delta_lagrange axis =
      (B1, B2, (-delta_lagrange) • axis) := by
  have hn : ¬ delta_lagrange ≥ -EPSILON := not_le.mpr h
  have hdl : -delta_lagrange ≠ 0 := by
    have := EPSILON_pos
    intro hc
    nlinarith
  refine ⟨?_, mul_ne_zero hdl hz, ?_⟩
  · rw [apply_angular_correction2, if_neg hn]
    simp [h1, h2]
  · rw [apply_angular_correction3, if_neg hn]
    simp [H1, H2]

/-- Witness for C9: two static bodies, `delta_lagrange = -1`, unit Z axis. -/
theorem apply_angular_correction_impulse_static_witness :
    apply_angular_correction2 ⟨0, 2, .static⟩ ⟨1, 3, .kinematic⟩ (-1) ⟨0, 0, 1⟩ =
      (⟨0, 2, .static⟩, ⟨1, 3, .kinematic⟩, -(-1 : ℝ) * 1) ∧
    -(-1 : ℝ) * 1 ≠ 0 :=
  ⟨(apply_angular_correction_impulse_static ⟨0, 2, .static⟩ ⟨1, 3, .kinematic⟩
      ⟨⟨0, 0, 0, 1⟩, fun v => v, .static⟩ ⟨⟨0, 0, 0, 1⟩, fun v => v, .kinematic⟩
      (-1) ⟨0, 0, 1⟩ (by norm_num [EPSILON]) rfl rfl rfl rfl (by norm_num)).1,
   (apply_angular_correction_impulse_static ⟨0, 2, .static⟩ ⟨1, 3, .kinematic⟩
      ⟨⟨0, 0, 0, 1⟩, fun v => v, .static⟩ ⟨⟨0, 0, 0, 1⟩, fun v => v, .kinematic⟩
      (-1) ⟨0, 0, 1⟩ (by norm_num [EPSILON]) rfl rfl rfl rfl (by norm_num)).2.1⟩

/-- C5: `compute_generalized_inverse_mass` returns
`axis · (world_inverse_inertia * axis)` for a `Dynamic` body and exactly `0`
for a `Static` or `Kinematic` body regardless of the stored inverse inertia,
in both the 2D and the 3D variant. -/
theorem compute_generalized_inverse_mass_spec (b : Body2) (B : Body3) (axis : Vec3) :
    (b.rb = .dynamic →
      compute_generalized_inverse_mass2 b axis = axis.dot (b.invInertia • axis)) ∧
    (b.rb = .static ∨ b.rb = .kinematic →
      compute_generalized_inverse_mass2 b axis = 0) ∧
    (B.rb = .dynamic →
      compute_generalized_inverse_mass3 B axis = axis.dot (B.worldInvInertia axis)) ∧
    (B.rb = .static ∨ B.rb = .kinematic →
      compute_generalized_inverse_mass3 B axis = 0) := by
  refine ⟨fun h => ?_, fun h => ?_, fun h => ?_, fun h => ?_⟩
  · rw [compute_generalized_inverse_mass2, h]
    rfl
  · rcases h with h | h <;> rw [compute_generalized_inverse_mass2, h] <;> rfl
  · rw [compute_generalized_inverse_mass3, h]
    rfl
  · rcases h with h | h <;> rw [compute_generalized_inverse_mass3, h] <;> rfl

/-- Witness for C5: a static 2D body with stored inverse inertia `7` and a
kinematic 3D body both yield a generalized inverse mass of exactly `0`. -/
theorem compute_generalized_inverse_mass_spec_witness :
    compute_generalized_inverse_mass2 ⟨0, 7, .static⟩ ⟨1, 2, 3⟩ = 0 ∧
    compute_generalized_inverse_mass3 ⟨⟨0, 0, 0, 1⟩, fun v => v, .kinematic⟩ ⟨1, 2, 3⟩ = 0 :=
  ⟨(compute_generalized_inverse_mass_spec ⟨0, 7, .static⟩
      ⟨⟨0, 0, 0, 1⟩, fun v => v, .kinematic⟩ ⟨1, 2, 3⟩).2.1 (Or.inl rfl),
   (compute_generalized_inverse_mass_spec ⟨0, 7, .static⟩
      ⟨⟨0, 0, 0, 1⟩, fun v => v, .kinematic⟩ ⟨1, 2, 3⟩).2.2.2 (Or.inr rfl)⟩

/-- C7: `compute_torque` returns `lagrange * axis / dt²` in 3D and
`lagrange * axis.z / dt²` in 2D; it is a pure function of its three arguments
and reads or modifies no body state. -/
theorem compute_torque_spec (lagrange dt : ℝ) (axis : Vec3) :
    compute_torque2 lagrange axis dt = lagrange * axis.z / dt ^ 2 ∧
    compute_torque3 lagrange axis dt = (lagrange / dt ^ 2) • axis := by
  refine ⟨rfl, ?_⟩
  rw [compute_torque3, Vec3.smul_def, Vec3.smul_def, Vec3.div]
  simp only [Vec3.mk.injEq]
  refine ⟨by ring, by ring, by ring⟩

/-- Adding zero anchors to a zero position and subtracting leaves the other
anchor position unchanged. -/
theorem Vec3.offset_zero (v : Vec3) : (v + (0 : Vec3)) - ((0 : Vec3) + (0 : Vec3)) = v := by
  simp [Vec3.add_def, Vec3.sub_def, Vec3.zero_def]

/-- C3: with `min ≤ max`, writing `off = (pos2 + r2) - (pos1 + r1)` and
`d = |off|`, `limit_distance` returns zero when `d ≤ EPSILON`, the pulling
correction `(d - min) • (-off / d)` when `EPSILON < d < min`, the pushing
correction `(d - max) • (-off / d)` when `d > max`, and zero when
`min ≤ d ≤ max`; with `min = 1, max = 2` the correction has magnitude `1/2`
at separation `1/2`, is zero at separation `3/2`, has magnitude `1` at
separation `3`, and is zero for coincident anchors. -/
theorem limit_distance_spec (mn mx : ℝ) (r1 r2 p1 p2 off : Vec3) (d : ℝ)
    (hminmax : mn ≤ mx)
    (hoff : off = (p2 + r2) - (p1 + r1)) (hd : d = off.length) :
    (d ≤ EPSILON → limit_distance mn mx r1 r2 p1 p2 = 0) ∧
    (EPSILON < d → d < mn →
      limit_distance mn mx r1 r2 p1 p2 = (d - mn) • (-off).div d) ∧
    (EPSILON < d → mx < d →
      limit_distance mn mx r1 r2 p1 p2 = (d - mx) • (-off).div d) ∧
    (mn ≤ d → d ≤ mx → limit_distance mn mx r1 r2 p1 p2 = 0) ∧
    (limit_distance 1 2 0 0 0 ⟨1 / 2, 0, 0⟩).length = 1 / 2 ∧
    limit_distance 1 2 0 0 0 ⟨3 / 2, 0, 0⟩ = 0 ∧
    (limit_distance 1 2 0 0 0 ⟨3, 0, 0⟩).length = 1 ∧
    limit_distance 1 2 0 0 0 0 = 0 := by
  subst hoff hd
  have hzero : limit_distance 1 2 0 0 0 0 = 0 := by
    simp only [limit_distance, Vec3.offset_zero]
    rw [Vec3.zero_def, Vec3.length_single 0 le_rfl, if_pos EPSILON_pos.le]
  refine ⟨?_, ?_, ?_, ?_, ?_, ?_, ?_, hzero⟩
  · intro h
    simp only [limit_distance]
    rw [if_pos h]
  · intro h1 h2
    simp only [limit_distance]
    rw [if_neg (not_le.mpr h1), if_pos h2]
  · intro h1 h2
    simp only [limit_distance]
    rw [if_neg (not_le.mpr h1),
      if_neg (not_lt.mpr (le_of_lt (lt_of_le_of_lt hminmax h2))), if_pos h2]
  · intro h1 h2
    simp only [limit_distance]
    by_cases he : ((p2 + r2) - (p1 + r1)).length ≤ EPSILON
    · rw [if_pos he]
    · rw [if_neg he, if_neg (not_lt.mpr h1), if_neg (not_lt.mpr h2)]
  · have e1 : limit_distance 1 2 0 0 0 ⟨1 / 2, 0, 0⟩ = ⟨1 / 2, 0, 0⟩ := by
      simp only [limit_distance, Vec3.offset_zero]
      rw [Vec3.length_single (1 / 2) (by norm_num)]
      rw [if_neg (by norm_num [EPSILON]), if_pos (by norm_num)]
      norm_num [Vec3.neg_def, Vec3.div, Vec3.smul_def]
    rw [e1, Vec3.length_single (1 / 2) (by norm_num)]
  · simp only [limit_distance, Vec3.offset_zero]
    rw [Vec3.length_single (3 / 2) (by norm_num)]
    rw [if_neg (by norm_num [EPSILON]), if_neg (by norm_num), if_neg (by norm_num)]
  · have e3 : limit_distance 1 2 0 0 0 ⟨3, 0, 0⟩ = ⟨-1, 0, 0⟩ := by
      simp only [limit_distance, Vec3.offset_zero]
      rw [Vec3.length_single 3 (by norm_num)]
      rw [if_neg (by norm_num [EPSILON]), if_neg (by norm_num), if_pos (by norm_num)]
      norm_num [Vec3.neg_def, Vec3.div, Vec3.smul_def]
    rw [e3, Vec3.length, Vec3.dot]
    norm_num

/-- Witness for C3: at `min = 1, max = 2` with all anchors and positions at
the origin the correction is zero. -/
theorem limit_distance_spec_witness :
    limit_distance 1 2 0 0 0 0 = 0 :=
  (limit_distance_spec 1 2 0 0 0 0 (((0 : Vec3) + 0) - ((0 : Vec3) + 0))
    ((((0 : Vec3) + 0) - ((0 : Vec3) + 0)).length) (by norm_num) rfl rfl).2.2.2.2.2.2.2

/-- C10: `limit_distance_along_axis` has no degenerate-distance guard: with
`a = ((pos2 + r2) - (pos1 + r1)) · axis` it returns `(a - min) • (-axis)` when
`a < min`, `(a - max) • (-axis)` when `a > max`, and zero otherwise; for
exactly coincident anchors with `min = 1 > 0` it returns the nonzero
correction `min • axis = axis`, unlike `limit_distance`, which returns zero
on coincident anchors. -/
theorem limit_distance_along_axis_spec (mn mx : ℝ) (axis r1 r2 p1 p2 : Vec3) (a : ℝ)
    (hminmax : mn ≤ mx)
    (ha : a = ((p2 + r2) - (p1 + r1)).dot axis) :
    (a < mn →
      limit_distance_along_axis mn mx axis r1 r2 p1 p2 = (a - mn) • (-axis)) ∧
    (mx < a →
      limit_distance_along_axis mn mx axis r1 r2 p1 p2 = (a - mx) • (-axis)) ∧
    (mn ≤ a → a ≤ mx → limit_distance_along_axis mn mx axis r1 r2 p1 p2 = 0) ∧
    limit_distance_along_axis 1 2 ⟨1, 0, 0⟩ 0 0 0 0 = ⟨1, 0, 0⟩ ∧
    (⟨1, 0, 0⟩ : Vec3) ≠ 0 ∧
    limit_distance 1 2 0 0 0 0 = 0 := by
  subst ha
  refine ⟨?_, ?_, ?_, ?_, ?_, ?_⟩
  · intro h
    simp only [limit_distance_along_axis]
    rw [if_pos h]
  · intro h
    simp only [limit_distance_along_axis]
    rw [if_neg (not_lt.mpr (le_of_lt (lt_of_le_of_lt hminmax h))), if_pos h]
  · intro h1 h2
    simp only [limit_distance_along_axis]
    rw [if_neg (not_lt.mpr h1), if_neg (not_lt.mpr h2)]
  · have hz : (((0 : Vec3) + 0) - ((0 : Vec3) + 0)).dot ⟨1, 0, 0⟩ = 0 := by
      norm_num [Vec3.add_def, Vec3.sub_def, Vec3.zero_def, Vec3.dot]
    simp only [limit_distance_along_axis, hz]
    rw [if_pos (by norm_num : (0 : ℝ) < 1)]
    norm_num [Vec3.neg_def, Vec3.smul_def]
  · simp only [ne_eq, Vec3.zero_def, Vec3.mk.injEq]
    norm_num
  · simp only [limit_distance, Vec3.offset_zero]
    rw [Vec3.zero_def, Vec3.length_single 0 le_rfl, if_pos EPSILON_pos.le]

/-- Witness for C10: coincident anchors with `min = 1` produce the nonzero
correction `(1, 0, 0)` along the axis, while `limit_distance` returns zero. -/
theorem limit_distance_along_axis_spec_witness :
    limit_distance_along_axis 1 2 ⟨1, 0, 0⟩ 0 0 0 0 = ⟨1, 0, 0⟩ ∧
    limit_distance 1 2 0 0 0 0 = 0 :=
  ⟨(limit_distance_along_axis_spec 1 2 ⟨1, 0, 0⟩ 0 0 0 0
      ((((0 : Vec3) + 0) - ((0 : Vec3) + 0)).dot ⟨1, 0, 0⟩) (by norm_num)
      rfl).2.2.2.1,
   (limit_distance_along_axis_spec 1 2 ⟨1, 0, 0⟩ 0 0 0 0
      ((((0 : Vec3) + 0) - ((0 : Vec3) + 0)).dot ⟨1, 0, 0⟩) (by norm_num)
      rfl).2.2.2.2.2⟩

/-- C8: the constraint operations are deterministic — two runs of
`apply_angular_correction`, `limit_distance`, `limit_distance_along_axis` or
`limit_angle` on identical inputs produce identical output body states and
return values; in this model each operation is a pure function of the body
states and parameters passed in, reading no ambient state. -/
theorem constraint_ops_deterministic
    (b1 b2 c1 c2 : Body2) (dl dl' : ℝ) (ax ax' : Vec3)
    (mn mx mn' mx' : ℝ) (r1 r2 p1 p2 r1' r2' p1' p2' : Vec3)
    (n n1 n2 m m1 m2 : Vec3) (al be mc al' be' mc' : ℝ)
    (h1 : (b1, b2, dl, ax) = (c1, c2, dl', ax'))
    (h2 : (mn, mx, r1, r2, p1, p2) = (mn', mx', r1', r2', p1', p2'))
    (h3 : (n, n1, n2, al, be, mc) = (m, m1, m2, al', be', mc')) :
    apply_angular_correction2 b1 b2 dl ax = apply_angular_correction2 c1 c2 dl' ax' ∧
    limit_distance mn mx r1 r2 p1 p2 = limit_distance mn' mx' r1' r2' p1' p2' ∧
    limit_distance_along_axis mn mx ax r1 r2 p1 p2 =
      limit_distance_along_axis mn' mx' ax' r1' r2' p1' p2' ∧
    limit_angle n n1 n2 al be mc = limit_angle m m1 m2 al' be' mc' := by
  simp only [Prod.mk.injEq] at h1 h2 h3
  obtain ⟨rfl, rfl, rfl, rfl⟩ := h1
  obtain ⟨rfl, rfl, rfl, rfl, rfl, rfl⟩ := h2
  obtain ⟨rfl, rfl, rfl, rfl, rfl, rfl⟩ := h3
  exact ⟨rfl, rfl, rfl, rfl⟩

/-- Witness for C8: a concrete repeated run of `apply_angular_correction`
with identical inputs yields identical results. -/
theorem constraint_ops_deterministic_witness :
    apply_angular_correction2 ⟨0, 2, .dynamic⟩ ⟨0, 2, .dynamic⟩ (-1) ⟨0, 0, 1⟩ =
      apply_angular_correction2 ⟨0, 2, .dynamic⟩ ⟨0, 2, .dynamic⟩ (-1) ⟨0, 0, 1⟩ :=
  (constraint_ops_deterministic ⟨0, 2, .dynamic⟩ ⟨0, 2, .dynamic⟩
    ⟨0, 2, .dynamic⟩ ⟨0, 2, .dynamic⟩ (-1) (-1) ⟨0, 0, 1⟩ ⟨0, 0, 1⟩
    1 2 1 2 0 0 0 0 0 0 0 0
    ⟨0, 0, 1⟩ ⟨1, 0, 0⟩ ⟨0, 1, 0⟩ ⟨0, 0, 1⟩ ⟨1, 0, 0⟩ ⟨0, 1, 0⟩
    (-1) 1 1 (-1) 1 1 rfl rfl rfl).1

/-- The flip-and-wrap computation of `limit_angle` lands in `[-PI, PI]`. -/
theorem limit_angle_phi_bounds (n n1 n2 : Vec3) :
    -Real.pi ≤ limit_angle_phi n n1 n2 ∧ limit_angle_phi n n1 n2 ≤ Real.pi := by
  have ha1 := Real.arcsin_le_pi_div_two ((n1.cross n2).dot n)
  have ha2 := Real.neg_pi_div_two_le_arcsin ((n1.cross n2).dot n)
  have hpi := Real.pi_pos
  simp only [limit_angle_phi]
  split_ifs <;> constructor <;> linarith

/-- C4: `limit_angle` measures the flipped-and-wrapped angle
`limit_angle_phi` (which always lies in `[-PI, PI]`), returns `None` exactly
when that angle lies inside `[alpha, beta]`, and otherwise returns `Some` of
the corrective vector for the clamped angle, whose magnitude never exceeds
`max_correction`; concretely for `n = (0,0,1)`, `n1 = (1,0,0)`,
`n2 = (0,1,0)` the result is `Some` for `alpha = -1, beta = 1` and `None` for
`alpha = -2, beta = 2`, and `None` is always distinguishable from a `Some` of
zero magnitude. -/
theorem limit_angle_spec (n n1 n2 : Vec3) (alpha beta mc : ℝ) (hmc : 0 ≤ mc) :
    (limit_angle n n1 n2 alpha beta mc = none ↔
      alpha ≤ limit_angle_phi n n1 n2 ∧ limit_angle_phi n n1 n2 ≤ beta) ∧
    (-Real.pi ≤ limit_angle_phi n n1 n2 ∧ limit_angle_phi n n1 n2 ≤ Real.pi) ∧
    (∀ ω, limit_angle n n1 n2 alpha beta mc = some ω →
      ω.length ≤ mc ∧
      ω = (if (limit_angle_omega n n1 n2
                (clampS (limit_angle_phi n n1 n2) alpha beta)).length > mc then
            (mc / (limit_angle_omega n n1 n2
                (clampS (limit_angle_phi n n1 n2) alpha beta)).length) •
              limit_angle_omega n n1 n2 (clampS (limit_angle_phi n n1 n2) alpha beta)
          else
            limit_angle_omega n n1 n2 (clampS (limit_angle_phi n n1 n2) alpha beta))) ∧
    (limit_angle ⟨0, 0, 1⟩ ⟨1, 0, 0⟩ ⟨0, 1, 0⟩ (-1) 1 mc).isSome = true ∧
    limit_angle ⟨0, 0, 1⟩ ⟨1, 0, 0⟩ ⟨0, 1, 0⟩ (-2) 2 mc = none ∧
    (∀ ω : Vec3, (none : Option Vec3) ≠ some ω) := by
  have hpi := Real.pi_pos
  have harg : ((Vec3.cross ⟨1, 0, 0⟩ ⟨0, 1, 0⟩).dot ⟨0, 0, 1⟩) = 1 := by
    norm_num [Vec3.cross, Vec3.dot]
  have hdot : (Vec3.dot ⟨1, 0, 0⟩ ⟨0, 1, 0⟩ : ℝ) = 0 := by norm_num [Vec3.dot]
  have hphi : limit_angle_phi ⟨0, 0, 1⟩ ⟨1, 0, 0⟩ ⟨0, 1, 0⟩ = Real.pi / 2 := by
    simp only [limit_angle_phi, harg, hdot, Real.arcsin_one]
    rw [if_neg (lt_irrefl (0 : ℝ))]
    rw [if_neg (by linarith : ¬ Real.pi / 2 > Real.pi)]
    rw [if_neg (by linarith : ¬ Real.pi / 2 < -Real.pi)]
  refine ⟨?_, limit_angle_phi_bounds n n1 n2, ?_, ?_, ?_, ?_⟩
  · by_cases hc : limit_angle_phi n n1 n2 < alpha ∨ limit_angle_phi n n1 n2 > beta
    · simp only [limit_angle]
      rw [if_pos hc]
      simp only [reduceCtorEq, false_iff]
      intro h
      rcases hc with hc | hc
      · exact absurd h.1 (not_le.mpr hc)
      · exact absurd h.2 (not_le.mpr hc)
    · simp only [limit_angle]
      rw [if_neg hc]
      push_neg at hc
      simp only [true_iff]
      exact hc
  · intro ω hω
    by_cases hc : limit_angle_phi n n1 n2 < alpha ∨ limit_angle_phi n n1 n2 > beta
    · simp only [limit_angle] at hω
      rw [if_pos hc] at hω
      have hX := (Option.some.injEq _ _).mp hω
      subst hX
      refine ⟨?_, rfl⟩
      by_cases hl : (limit_angle_omega n n1 n2
          (clampS (limit_angle_phi n n1 n2) alpha beta)).length > mc
      · rw [if_pos hl, Vec3.length_smul]
        have hL : 0 < (limit_angle_omega n n1 n2
            (clampS (limit_angle_phi n n1 n2) alpha beta)).length :=
          lt_of_le_of_lt hmc hl
        rw [abs_of_nonneg (div_nonneg hmc hL.le), div_mul_cancel₀ _ (ne_of_gt hL)]
      · rw [if_neg hl]
        exact not_lt.mp hl
    · simp only [limit_angle] at hω
      rw [if_neg hc] at hω
      exact absurd hω (by simp)
  · simp only [limit_angle, hphi]
    rw [if_pos (Or.inr (by linarith [Real.pi_gt_three]))]
    rfl
  · simp only [limit_angle, hphi]
    rw [if_neg ?_]
    rintro (h | h)
    · linarith
    · linarith [Real.pi_le_four]
  · intro ω h
    exact Option.noConfusion h

/-- Witness for C4: the concrete `None` example at `max_correction = 1`. -/
theorem limit_angle_spec_witness :
    limit_angle ⟨0, 0, 1⟩ ⟨1, 0, 0⟩ ⟨0, 1, 0⟩ (-2) 2 1 = none ∧
    (limit_angle ⟨0, 0, 1⟩ ⟨1, 0, 0⟩ ⟨0, 1, 0⟩ (-1) 1 1).isSome = true :=
  ⟨(limit_angle_spec ⟨0, 0, 1⟩ ⟨1, 0, 0⟩ ⟨0, 1, 0⟩ (-2) 2 1
      (by norm_num)).2.2.2.2.1,
   (limit_angle_spec ⟨0, 0, 1⟩ ⟨1, 0, 0⟩ ⟨0, 1, 0⟩ (-1) 1 1
      (by norm_num)).2.2.2.1⟩

end BevyXpbd
